import Mathlib

/-!
Verification of the C2 orchestration core (`c2_server.py`, `c2_agent.py`)
against its design specification.

Shallow embedding conventions:
* The SQLite tables `agents` and `commands` are embedded as Lean lists kept
  in insertion (rowid) order; `created_at` is assigned at insertion time, so
  `ORDER BY created_at ASC` coincides with the stored order.
* `uuid.uuid4()` (agent ids) and `Fernet.generate_key()` (symmetric keys) are
  modelled as draws from fresh-id counters held in the server state: the
  source relies on their uniqueness, the model makes that supply explicit.
* `CURRENT_TIMESTAMP` is a `Nat` parameter `now` passed to each operation.
* Flask endpoints become pure state-transformer functions; a JSON error
  response with its message string becomes `Except.error msg`.
* Status columns stay `String`s, exactly the literals the source writes.
-/

namespace C2Spec

/-- A row of the `agents` table (`c2_server.py`, `init_database`).
The `id TEXT PRIMARY KEY` is carried alongside in an association list. -/
structure AgentRec where
  hostname : String
  username : String
  osInfo : String
  ipAddress : String
  firstSeen : Nat
  lastSeen : Nat
  status : String
  encryptionKey : Nat
  capabilities : List String
deriving DecidableEq, Repr

/-- A row of the `commands` table (`c2_server.py`, `init_database`):
`id INTEGER PRIMARY KEY AUTOINCREMENT`, owning `agent_id`, the command text,
`status TEXT DEFAULT 'pending'`, timestamps and the nullable result. -/
structure CommandRec where
  cmdId : Nat
  agentId : Nat
  command : String
  status : String
  createdAt : Nat
  executedAt : Option Nat
  result : Option String
deriving DecidableEq, Repr

/-- The controller state: the two durable tables, the fresh-id supplies
(AUTOINCREMENT rowid counter, uuid4 supply, Fernet key supply) and the
in-memory `connected_agents` presence map (keys only; the socket session
ids are irrelevant to the claims). -/
structure ServerState where
  agents : List (Nat × AgentRec)
  commands : List CommandRec
  nextCommandId : Nat
  nextAgentId : Nat
  nextKey : Nat
  connectedAgents : List Nat
deriving DecidableEq, Repr

/-- Fresh database: empty tables, AUTOINCREMENT starts at 1. -/
def initState : ServerState :=
  { agents := [], commands := [], nextCommandId := 1, nextAgentId := 0,
    nextKey := 0, connectedAgents := [] }

/-- `SELECT id FROM agents WHERE id = ?` used by several endpoints. -/
def agentExists (s : ServerState) (aid : Nat) : Bool :=
  s.agents.any (fun a => a.1 == aid)

/-- `POST /api/agent/register` (`register_agent`): always succeeds, draws a
fresh uuid and a fresh key, inserts the agent (status defaults to
`'active'` per the table schema) and returns id and key. -/
def registerAgent (s : ServerState) (hostname username osInfo : String)
    (capabilities : List String) (remoteAddr : String) (now : Nat) :
    (Nat × Nat) × ServerState :=
  let aid := s.nextAgentId
  let key := s.nextKey
  let a : AgentRec :=
    { hostname := hostname, username := username, osInfo := osInfo,
      ipAddress := remoteAddr, firstSeen := now, lastSeen := now,
      status := "active", encryptionKey := key, capabilities := capabilities }
  ((aid, key),
   { s with agents := s.agents ++ [(aid, a)],
            nextAgentId := aid + 1, nextKey := key + 1 })

/-- `POST /api/agents` (`add_agent_manually`): validates the four required
fields, rejects a duplicate `ip_address` with HTTP 409, otherwise inserts
the agent with status `'manual'`. -/
def addAgentManually (s : ServerState)
    (hostname username osInfo ipAddress : String)
    (capabilities : List String) (now : Nat) :
    Except String (Nat × ServerState) :=
  if hostname = "" then .error "Champ requis manquant: hostname"
  else if username = "" then .error "Champ requis manquant: username"
  else if osInfo = "" then .error "Champ requis manquant: os_info"
  else if ipAddress = "" then .error "Champ requis manquant: ip_address"
  else if s.agents.any (fun a => a.2.ipAddress == ipAddress) then
    .error "Un agent avec cette IP existe déjà"
  else
    let aid := s.nextAgentId
    let key := s.nextKey
    let a : AgentRec :=
      { hostname := hostname, username := username, osInfo := osInfo,
        ipAddress := ipAddress, firstSeen := now, lastSeen := now,
        status := "manual", encryptionKey := key,
        capabilities := capabilities }
    .ok (aid, { s with agents := s.agents ++ [(aid, a)],
                       nextAgentId := aid + 1, nextKey := key + 1 })

/-- `DELETE /api/agents/<agent_id>` (`delete_agent`): 404 if the agent does
not exist, otherwise deletes the agent row and all its command rows. -/
def deleteAgent (s : ServerState) (aid : Nat) : Except String ServerState :=
  if agentExists s aid then
    .ok { s with agents := s.agents.filter (fun a => a.1 != aid),
                 commands := s.commands.filter (fun c => c.agentId != aid) }
  else .error "Agent non trouvé"

/-- A `socketio.emit('new_command', ...)` to the agent's room. -/
structure PushEvent where
  room : Nat
  commandId : Nat
  command : String
deriving DecidableEq, Repr

/-- `POST /api/agents/<agent_id>/commands` (`send_command`): rejects a
missing/empty command (falsy check) with HTTP 400 before anything else,
then 404 if the agent does not exist, then inserts one command row (status
defaults to `'pending'`) and, when the agent is in `connected_agents`,
emits a `new_command` push event; returns the new rowid. -/
def sendCommand (s : ServerState) (aid : Nat) (command : String)
    (now : Nat) : Except String (Nat × List PushEvent × ServerState) :=
  if command = "" then .error "Commande requise"
  else if agentExists s aid then
    let cid := s.nextCommandId
    let c : CommandRec :=
      { cmdId := cid, agentId := aid, command := command,
        status := "pending", createdAt := now, executedAt := none,
        result := none }
    let events : List PushEvent :=
      if aid ∈ s.connectedAgents then [⟨aid, cid, command⟩] else []
    .ok (cid, events,
         { s with commands := s.commands ++ [c], nextCommandId := cid + 1 })
  else .error "Agent non trouvé"

/-- The `UPDATE agents SET last_seen = CURRENT_TIMESTAMP, status = 'active'
WHERE id = ?` of `agent_checkin`; a no-op on an unknown id. -/
def touchAgent (aid : Nat) (now : Nat) (a : Nat × AgentRec) :
    Nat × AgentRec :=
  if a.1 = aid then (a.1, { a.2 with lastSeen := now, status := "active" })
  else a

/-- `POST /api/agent/<agent_id>/checkin` (`agent_checkin`): touches the
agent row, then `SELECT id, command FROM commands WHERE agent_id = ? AND
status = 'pending' ORDER BY created_at ASC` and returns those pairs.
No command row is modified. -/
def agentCheckin (s : ServerState) (aid : Nat) (now : Nat) :
    List (Nat × String) × ServerState :=
  ((s.commands.filter
      (fun c => c.agentId == aid && c.status == "pending")).map
      (fun c => (c.cmdId, c.command)),
   { s with agents := s.agents.map (touchAgent aid now) })

/-- `POST /api/agent/<agent_id>/result` (`submit_result`): a single
unconditional `UPDATE commands SET status = 'completed', executed_at =
CURRENT_TIMESTAMP, result = ? WHERE id = ? AND agent_id = ?`; the endpoint
then answers `{'status': 'received'}` regardless of whether any row
matched. -/
def submitResult (s : ServerState) (aid : Nat) (cid : Nat)
    (result : String) (now : Nat) : ServerState :=
  { s with commands := s.commands.map (fun c =>
      if c.cmdId = cid ∧ c.agentId = aid then
        { c with status := "completed", executedAt := some now,
                 result := some result }
      else c) }

/-- `join_agent` socket handler: `connected_agents[agent_id] = sid`. -/
def attachAgent (s : ServerState) (aid : Nat) : ServerState :=
  { s with connectedAgents :=
      if aid ∈ s.connectedAgents then s.connectedAgents
      else aid :: s.connectedAgents }

/-- `disconnect` socket handler: removes the agent from
`connected_agents`. -/
def detachAgent (s : ServerState) (aid : Nat) : ServerState :=
  { s with connectedAgents := s.connectedAgents.filter (fun x => x != aid) }

/-- One controller operation, with arbitrary request parameters. Failing
requests (HTTP 4xx) leave the state unchanged, so only the successful
branches of the fallible endpoints appear. -/
inductive Step : ServerState → ServerState → Prop
  | register (s : ServerState) (h u o r : String) (caps : List String)
      (now : Nat) : Step s (registerAgent s h u o caps r now).2
  | admitManual (s : ServerState) (h u o ip : String)
      (caps : List String) (now : Nat) (aid : Nat) (s' : ServerState)
      (heq : addAgentManually s h u o ip caps now = .ok (aid, s')) :
      Step s s'
  | delete (s : ServerState) (aid : Nat) (s' : ServerState)
      (heq : deleteAgent s aid = .ok s') : Step s s'
  | enqueue (s : ServerState) (aid : Nat) (cmd : String) (now : Nat)
      (cid : Nat) (evs : List PushEvent) (s' : ServerState)
      (heq : sendCommand s aid cmd now = .ok (cid, evs, s')) : Step s s'
  | checkin (s : ServerState) (aid : Nat) (now : Nat) :
      Step s (agentCheckin s aid now).2
  | result (s : ServerState) (aid cid : Nat) (res : String) (now : Nat) :
      Step s (submitResult s aid cid res now)
  | attach (s : ServerState) (aid : Nat) : Step s (attachAgent s aid)
  | detach (s : ServerState) (aid : Nat) : Step s (detachAgent s aid)

/-- States reachable from a fresh database through controller operations. -/
def Reachable (s : ServerState) : Prop :=
  Relation.ReflTransGen Step initState s

/-! ## Agent runtime (`c2_agent.py`, `C2Agent.execute_command`)

String primitives are modelled on `List Char` so that Python's
`startswith`, slicing, `strip`, `lower` and the substring operator `in`
are explicit, executable functions. -/

/-- `pat` is a prefix of `s` (character lists). -/
def charsHasPre : List Char → List Char → Bool
  | [], _ => true
  | _ :: _, [] => false
  | p :: ps, c :: cs => p == c && charsHasPre ps cs

/-- Python's substring operator: `pat in s` (character lists). -/
def charsContains (s pat : List Char) : Bool :=
  match s with
  | [] => pat.isEmpty
  | _ :: rest => charsHasPre pat s || charsContains rest pat

/-- Python `s.startswith(pat)`. -/
def pyStartsWith (s pat : String) : Bool :=
  charsHasPre pat.data s.data

/-- Python `pat in s`. -/
def pyContains (s pat : String) : Bool :=
  charsContains s.data pat.data

/-- Python `s.lower()` (character list form, ASCII-faithful). -/
def pyLower (l : List Char) : List Char :=
  l.map Char.toLower

/-- Python `s.strip()` (default whitespace). -/
def pyStrip (l : List Char) : List Char :=
  ((l.dropWhile Char.isWhitespace).reverse.dropWhile
      Char.isWhitespace).reverse

/-- The fixed denylist `forbidden_commands` of `execute_command`, verbatim
(the shell fork bomb's braces written as their character codes). -/
def forbiddenCommands : List String :=
  ["rm -rf", "format", "del /f", "shutdown", "reboot",
   "mkfs", "dd if=", ":()\x7b :|:& \x7d;:", "chmod 777 /"]

/-- `any(forbidden in command.lower() for forbidden in forbidden_commands)`. -/
def matchesDenylist (command : String) : Bool :=
  forbiddenCommands.any (fun f => charsContains (pyLower command.data) f.data)

/-- Result text returned on a denylist hit. -/
def forbiddenMsg : String :=
  "❌ Commande interdite pour des raisons de sécurité"

/-- Result text produced by the `subprocess.TimeoutExpired` handler. -/
def timeoutMsg : String :=
  "❌ Timeout: Commande interrompue après 30 secondes"

/-- Outcome of `subprocess.run(command, shell=True, ..., timeout=30)`:
normal completion with captured streams and return code, expiry of the
30-second budget, or any other raised exception. -/
inductive RunOutcome where
  | completed (stdout stderr : String) (returncode : Int)
  | timedOut
  | raised (msg : String)
deriving DecidableEq, Repr

/-- The host facilities `execute_command` touches, as an oracle: `os.chdir`
(error message, or the new `os.getcwd()` on success), the three built-in
lookups, the `sysinfo` JSON blob, and the shell execution facility. -/
structure HostEnv where
  chdir : String → Except String String
  getcwd : String
  user : String
  hostname : String
  sysinfo : String
  run : String → RunOutcome

/-- An execution result together with whether the host execution facility
(`subprocess.run`) was invoked — instrumentation for the never-executed
guarantees; the source returns only the string. -/
structure ExecResult where
  output : String
  ranShell : Bool
deriving DecidableEq, Repr

/-- `C2Agent.execute_command`, branch for branch: the `cd ` prefix (its own
try/except), the built-ins `pwd`/`whoami`/`hostname`, `sysinfo`, then the
denylist gate, then `subprocess.run` with the outer handlers for
`TimeoutExpired` and any other exception. Total by construction, mirroring
the enclosing catch-all `try`. -/
def executeCommand (env : HostEnv) (command : String) : ExecResult :=
  if pyStartsWith command "cd " then
    match env.chdir (String.mk (pyStrip (command.data.drop 3))) with
    | .ok newCwd => ⟨"Répertoire changé vers: " ++ newCwd, false⟩
    | .error e => ⟨"Erreur cd: " ++ e, false⟩
  else if command = "pwd" then ⟨env.getcwd, false⟩
  else if command = "whoami" then ⟨env.user, false⟩
  else if command = "hostname" then ⟨env.hostname, false⟩
  else if command = "sysinfo" then ⟨env.sysinfo, false⟩
  else if matchesDenylist command then ⟨forbiddenMsg, false⟩
  else
    match env.run command with
    | .completed out err code =>
        let output := if err = "" then out else out ++ "\nSTDERR: " ++ err
        ⟨if output = "" then
           "Commande exécutée (code de retour: " ++ toString code ++ ")"
         else output, true⟩
    | .timedOut => ⟨timeoutMsg, true⟩
    | .raised m => ⟨"❌ Erreur d'exécution: " ++ m, true⟩

/-! ## Concrete states used as explicit inputs -/

/-- A registered agent record, as stored by `registerAgent` at time 0. -/
def exAgent : AgentRec :=
  { hostname := "host", username := "user", osInfo := "Linux 6.1",
    ipAddress := "10.0.0.2", firstSeen := 0, lastSeen := 0,
    status := "active", encryptionKey := 0, capabilities := [] }

/-- A pending command row as inserted by `sendCommand` at time 0. -/
def exCmd : CommandRec :=
  { cmdId := 1, agentId := 0, command := "whoami", status := "pending",
    createdAt := 0, executedAt := none, result := none }

/-- The same command row once `submitResult` has completed it at time 6
with result `"root"`. -/
def exCmdDone : CommandRec :=
  { cmdId := 1, agentId := 0, command := "whoami", status := "completed",
    createdAt := 0, executedAt := some 6, result := some "root" }

/-- Controller state holding one agent (id 0) and one pending command
(id 1, `whoami`); reachable via `registerAgent` then `sendCommand`. -/
def exState : ServerState :=
  { agents := [(0, exAgent)],
    commands := [exCmd],
    nextCommandId := 2, nextAgentId := 1, nextKey := 1,
    connectedAgents := [] }

/-- A command row completed at time 1 with stored result `"old"`. -/
def exCmdOld : CommandRec :=
  { cmdId := 1, agentId := 0, command := "whoami", status := "completed",
    createdAt := 0, executedAt := some 1, result := some "old" }

/-- Controller state holding one agent (id 0) and one command already
completed with stored result `"old"`. -/
def exStateDone : ServerState :=
  { agents := [(0, exAgent)],
    commands := [exCmdOld],
    nextCommandId := 2, nextAgentId := 1, nextKey := 1,
    connectedAgents := [] }

/-- Controller state with one agent (id 0) holding an open push channel
and no commands. -/
def exStateLive : ServerState :=
  { agents := [(0, exAgent)],
    commands := [], nextCommandId := 1, nextAgentId := 1, nextKey := 1,
    connectedAgents := [0] }

/-- `exStateLive` after `sendCommand` enqueued (and pushed) `pwd`. -/
def exStateLivePushed : ServerState :=
  { agents := [(0, exAgent)],
    commands := [{ cmdId := 1, agentId := 0, command := "pwd",
                   status := "pending", createdAt := 1,
                   executedAt := none, result := none }],
    nextCommandId := 2, nextAgentId := 1, nextKey := 1,
    connectedAgents := [0] }

/-- `exState` after `deleteAgent` removed agent 0 and its command. -/
def exStateDel : ServerState :=
  { agents := [], commands := [], nextCommandId := 2, nextAgentId := 1,
    nextKey := 1, connectedAgents := [] }

/-- A concrete host oracle whose `chdir` always fails and whose shell
always times out. -/
def exEnv : HostEnv :=
  { chdir := fun p => .error ("[Errno 2] No such file or directory: " ++ p),
    getcwd := "/root", user := "root", hostname := "host",
    sysinfo := "{}", run := fun _ => .timedOut }

/-! ## Invariants -/

/-- Position of a status literal in the documented lifecycle order
PENDING → SENT → (COMPLETED | FAILED). -/
def statusRank : String → Nat
  | "pending" => 0
  | "sent" => 1
  | _ => 2

/-- Ledger well-formedness: command ids are pairwise distinct and below
the AUTOINCREMENT counter — what SQLite's `INTEGER PRIMARY KEY
AUTOINCREMENT` guarantees for the `commands` table. -/
def CmdWF (s : ServerState) : Prop :=
  (s.commands.map CommandRec.cmdId).Nodup ∧
  ∀ c ∈ s.commands, c.cmdId < s.nextCommandId

/-- Agent-store well-formedness: stored agent ids and issued keys lie
below their supply counters (uuid4 / Fernet freshness, made explicit). -/
def AgentWF (s : ServerState) : Prop :=
  (∀ a ∈ s.agents, a.1 < s.nextAgentId) ∧
  (∀ a ∈ s.agents, a.2.encryptionKey < s.nextKey)

/-! ## Helper lemmas -/

theorem agentCheckin_commands (s : ServerState) (aid now : Nat) :
    ((agentCheckin s aid now).2).commands = s.commands := rfl

theorem submitResult_commands (s : ServerState) (aid cid : Nat)
    (res : String) (now : Nat) :
    (submitResult s aid cid res now).commands
      = s.commands.map (fun c =>
          if c.cmdId = cid ∧ c.agentId = aid then
            { c with status := "completed", executedAt := some now,
                     result := some res }
          else c) := rfl

/-! ## C1: check-in claiming -/

/-- C1, counterexample: with one pending `whoami` command for agent 0,
check-in returns it but leaves it PENDING (no SENT transition), and an
immediate second check-in with no enqueue in between returns the same
non-empty sequence rather than the empty one. -/
theorem claimPending_no_sent_cex :
    (agentCheckin exState 0 1).1 = [(1, "whoami")] ∧
    (∀ c ∈ ((agentCheckin exState 0 1).2).commands,
        c.status = "pending") ∧
    (agentCheckin ((agentCheckin exState 0 1).2) 0 2).1
      = [(1, "whoami")] := by
  refine ⟨by decide, by decide, by decide⟩

/-- C1 (amended): check-in returns exactly the PENDING commands of the
agent, in creation order (a subsequence of the insertion-ordered ledger),
but performs no status transition: the ledger is unchanged, and a second
check-in with no enqueue in between returns the same sequence. -/
theorem claimPending_amended (s : ServerState) (aid now now' : Nat) :
    ((agentCheckin s aid now).2).commands = s.commands ∧
    (∃ l : List CommandRec, l.Sublist s.commands ∧
        (∀ c ∈ l, c.agentId = aid ∧ c.status = "pending") ∧
        (agentCheckin s aid now).1
          = l.map (fun c => (c.cmdId, c.command))) ∧
    (∀ c ∈ s.commands, c.agentId = aid → c.status = "pending" →
        (c.cmdId, c.command) ∈ (agentCheckin s aid now).1) ∧
    (agentCheckin ((agentCheckin s aid now).2) aid now').1
      = (agentCheckin s aid now).1 := by
  refine ⟨rfl, ⟨s.commands.filter
      (fun c => c.agentId == aid && c.status == "pending"),
      List.filter_sublist _, ?_, rfl⟩, ?_, rfl⟩
  · intro c hc
    have := List.of_mem_filter hc
    simp only [Bool.and_eq_true, beq_iff_eq] at this
    exact this
  · intro c hc h1 h2
    simp only [agentCheckin, List.mem_map]
    exact ⟨c, List.mem_filter.2 ⟨hc, by simp [h1, h2]⟩, rfl⟩

/-- C1 witness: the amended theorem applied to the concrete one-command
state. -/
theorem claimPending_amended_witness :
    (1, "whoami") ∈ (agentCheckin exState 0 1).1 :=
  (claimPending_amended exState 0 1 2).2.2.1 exCmd (by decide)
    (by decide) (by decide)

/-! ## C2: result ingestion -/

/-- C2, counterexample: command 1 of agent 0 is already COMPLETED with
stored result `"old"`; a further `recordResult` call does not fail — it
succeeds and overwrites the stored result with `"new"`. -/
theorem recordResult_overwrites_cex :
    (submitResult exStateDone 0 1 "new" 7).commands.map
        (fun c => (c.status, c.result))
      = [("completed", some "new")] := by
  decide

/-- C2 (amended): `recordResult` never fails: the endpoint answers
success unconditionally; when no command row matches the (id, agent) pair
the call is a silent no-op, and when one matches it is set to COMPLETED
with the new result regardless of its prior status — a duplicate result
silently overwrites the stored one. -/
theorem recordResult_amended (s : ServerState) (aid cid : Nat)
    (res : String) (now : Nat) :
    ((∀ c ∈ s.commands, ¬(c.cmdId = cid ∧ c.agentId = aid)) →
        (submitResult s aid cid res now).commands = s.commands) ∧
    (∀ c ∈ s.commands, c.cmdId = cid → c.agentId = aid →
        { c with status := "completed", executedAt := some now,
                 result := some res }
          ∈ (submitResult s aid cid res now).commands) := by
  constructor
  · intro hnone
    rw [submitResult_commands]
    have : ∀ c ∈ s.commands,
        (if c.cmdId = cid ∧ c.agentId = aid then
          { c with status := "completed", executedAt := some now,
                   result := some res }
        else c) = id c := by
      intro c hc
      rw [if_neg (hnone c hc)]
      rfl
    rw [List.map_congr_left this, List.map_id]
  · intro c hc h1 h2
    rw [submitResult_commands]
    have := List.mem_map_of_mem (fun c =>
      if c.cmdId = cid ∧ c.agentId = aid then
        { c with status := "completed", executedAt := some now,
                 result := some res }
      else c) hc
    simp only [] at this
    rwa [if_pos ⟨h1, h2⟩] at this

/-- C2 witness: the amended theorem applied to the concrete
already-completed command. -/
theorem recordResult_amended_witness :
    { exCmdOld with status := "completed", executedAt := some (7 : Nat),
                    result := some "new" }
      ∈ (submitResult exStateDone 0 1 "new" 7).commands :=
  (recordResult_amended exStateDone 0 1 "new" 7).2 exCmdOld (by decide)
    rfl rfl

/-! ## C3: push versus poll delivery -/

/-- C3, counterexample: agent 0 holds an open channel; enqueueing `pwd`
emits a push event, yet the stored command stays PENDING (the push path
performs no ledger transition), so the agent's next poll returns the
already-pushed command again as new work. -/
theorem push_leaves_pending_cex :
    sendCommand exStateLive 0 "pwd" 1
      = .ok (1, [⟨0, 1, "pwd"⟩], exStateLivePushed) ∧
    (∀ c ∈ exStateLivePushed.commands, c.status = "pending") ∧
    (agentCheckin exStateLivePushed 0 2).1 = [(1, "pwd")] := by
  refine ⟨by rfl, by decide, by decide⟩

/-- C3 (amended): when the target agent is present, `sendCommand` pushes
the command over the live channel but leaves it PENDING — it does not go
through any PENDING→SENT transition — so a subsequent poll returns the
same command again: the two delivery paths can both hand the command to
the Runtime as new work. -/
theorem push_poll_amended (s : ServerState) (aid : Nat) (cmd : String)
    (now now' cid : Nat) (evs : List PushEvent) (s' : ServerState)
    (hlive : aid ∈ s.connectedAgents)
    (heq : sendCommand s aid cmd now = .ok (cid, evs, s')) :
    evs = [⟨aid, cid, cmd⟩] ∧
    (∃ c ∈ s'.commands, c.cmdId = cid ∧ c.status = "pending") ∧
    (cid, cmd) ∈ (agentCheckin s' aid now').1 := by
  unfold sendCommand at heq
  split at heq
  · exact absurd heq (by simp)
  · split at heq
    · simp only [Except.ok.injEq, Prod.mk.injEq] at heq
      obtain ⟨hcid, hevs, hs'⟩ := heq
      subst hcid hs'
      refine ⟨hevs.symm, ?_, ?_⟩
      · exact ⟨_, List.mem_append_right _ (List.mem_singleton_self _),
          rfl, rfl⟩
      · simp only [agentCheckin, List.mem_map]
        refine ⟨⟨s.nextCommandId, aid, cmd, "pending", now, none, none⟩,
          List.mem_filter.2
            ⟨List.mem_append_right _ (List.mem_singleton_self _),
             by simp⟩, rfl⟩
    · exact absurd heq (by simp)

/-- C3 witness: the amended theorem applied to the concrete live-channel
state. -/
theorem push_poll_amended_witness :
    (1, "pwd") ∈ (agentCheckin exStateLivePushed 0 2).1 :=
  (push_poll_amended exStateLive 0 "pwd" 1 2 1 [⟨0, 1, "pwd"⟩]
    exStateLivePushed (by decide) (by rfl)).2.2

/-! ## C5: agent registration -/

/-- C5: registration always succeeds (the function is total and no branch
rejects); it draws an agent id and a symmetric key fresh with respect to
everything stored, persists the agent record with status `'active'`
carrying that key, and returns both id and key to the caller. -/
theorem register_spec (s : ServerState) (h u o : String)
    (caps : List String) (r : String) (now : Nat) (hwf : AgentWF s)
    (aid key : Nat) (s' : ServerState)
    (heq : registerAgent s h u o caps r now = ((aid, key), s')) :
    (∀ a ∈ s.agents, a.1 ≠ aid) ∧
    (∀ a ∈ s.agents, a.2.encryptionKey ≠ key) ∧
    ∃ arec : AgentRec, s'.agents = s.agents ++ [(aid, arec)] ∧
      arec.status = "active" ∧ arec.encryptionKey = key := by
  unfold registerAgent at heq
  simp only [Prod.mk.injEq] at heq
  obtain ⟨⟨haid, hkey⟩, hs'⟩ := heq
  subst haid hkey hs'
  refine ⟨fun a ha => Nat.ne_of_lt (hwf.1 a ha),
          fun a ha => Nat.ne_of_lt (hwf.2 a ha),
          _, rfl, rfl, rfl⟩

/-- C5 witness: registration on the concrete one-agent state; the stored
agent's id differs from the freshly allocated one. -/
theorem register_spec_witness :
    ((0 : Nat), exAgent).1
      ≠ (registerAgent exState "h2" "u2" "o2" [] "ip2" 3).1.1 :=
  (register_spec exState "h2" "u2" "o2" [] "ip2" 3
    (by unfold AgentWF; refine ⟨?_, ?_⟩ <;> decide)
    1 1 (registerAgent exState "h2" "u2" "o2" [] "ip2" 3).2 rfl).1
    (0, exAgent) (by decide)

/-! ## C8: agent deletion -/

/-- C8: deleting an unknown agent fails with the not-found error; deleting
an existing one removes the agent record and every command owned by it
(and nothing else), so neither the agent nor any of its commands remains. -/
theorem delete_agent_spec (s : ServerState) (aid : Nat) :
    (agentExists s aid = false →
        deleteAgent s aid = .error "Agent non trouvé") ∧
    (∀ s', deleteAgent s aid = .ok s' →
      (∀ a ∈ s'.agents, a.1 ≠ aid) ∧
      (∀ c ∈ s'.commands, c.agentId ≠ aid) ∧
      (∀ a ∈ s.agents, a.1 ≠ aid → a ∈ s'.agents) ∧
      (∀ c ∈ s.commands, c.agentId ≠ aid → c ∈ s'.commands)) := by
  constructor
  · intro habs
    unfold deleteAgent
    rw [habs]
    rfl
  · intro s' heq
    unfold deleteAgent at heq
    split at heq
    · simp only [Except.ok.injEq] at heq
      subst heq
      refine ⟨?_, ?_, ?_, ?_⟩
      · intro a ha
        have := List.of_mem_filter ha
        simpa [bne_iff_ne] using this
      · intro c hc
        have := List.of_mem_filter hc
        simpa [bne_iff_ne] using this
      · intro a ha hne
        exact List.mem_filter.2 ⟨ha, by simpa [bne_iff_ne] using hne⟩
      · intro c hc hne
        exact List.mem_filter.2 ⟨hc, by simpa [bne_iff_ne] using hne⟩
    · exact absurd heq (by simp)

/-- C8 witness: deletion of an unknown id on the concrete state fails
with the not-found error. -/
theorem delete_agent_spec_witness :
    deleteAgent exState 5 = .error "Agent non trouvé" :=
  (delete_agent_spec exState 5).1 (by decide)

/-! ## C9: command enqueue -/

/-- C9, counterexample: agent 0 exists, yet enqueueing the empty command
text does not insert a command — the request is rejected with the
missing-command error before the agent lookup, contradicting the claim
that enqueue inserts a command whenever the agent exists. -/
theorem enqueue_empty_cex :
    agentExists exState 0 = true ∧
    sendCommand exState 0 "" 5 = .error "Commande requise" :=
  ⟨by decide, by rfl⟩

/-- C9 (amended): empty (falsy) command text is rejected with the
missing-command error before the agent check; for non-empty text, enqueue
fails with the agent-not-found error when the agent does not exist, and
otherwise appends exactly one PENDING command, returns its id, and leaves
the stored commands and agents otherwise unchanged. -/
theorem enqueue_amended (s : ServerState) (aid : Nat) (t : String)
    (now : Nat) :
    (t = "" → sendCommand s aid t now = .error "Commande requise") ∧
    (t ≠ "" → agentExists s aid = false →
        sendCommand s aid t now = .error "Agent non trouvé") ∧
    (t ≠ "" → agentExists s aid = true →
        ∃ evs s', sendCommand s aid t now = .ok (s.nextCommandId, evs, s')
          ∧ s'.commands = s.commands ++
              [{ cmdId := s.nextCommandId, agentId := aid, command := t,
                 status := "pending", createdAt := now,
                 executedAt := none, result := none }]
          ∧ s'.agents = s.agents) := by
  refine ⟨fun ht => ?_, fun ht habs => ?_, fun ht hex => ?_⟩
  · unfold sendCommand
    rw [if_pos ht]
  · unfold sendCommand
    rw [if_neg ht, habs]
    rfl
  · unfold sendCommand
    rw [if_neg ht, hex]
    exact ⟨_, _, rfl, rfl, rfl⟩

/-- C9 witness: enqueue of non-empty text against the emptied store fails
with the agent-not-found error. -/
theorem enqueue_amended_witness :
    sendCommand exStateDel 0 "whoami" 5 = .error "Agent non trouvé" :=
  (enqueue_amended exStateDel 0 "whoami" 5).2.1 (by decide) (by decide)

/-! ## Step-machine lemmas for the reachability claims -/

theorem addAgentManually_ok {s : ServerState} {h u o ip : String}
    {caps : List String} {now aid : Nat} {s' : ServerState}
    (heq : addAgentManually s h u o ip caps now = .ok (aid, s')) :
    s'.commands = s.commands ∧ s'.nextCommandId = s.nextCommandId := by
  unfold addAgentManually at heq
  split at heq
  · exact absurd heq (by simp)
  · split at heq
    · exact absurd heq (by simp)
    · split at heq
      · exact absurd heq (by simp)
      · split at heq
        · exact absurd heq (by simp)
        · split at heq
          · exact absurd heq (by simp)
          · simp only [Except.ok.injEq, Prod.mk.injEq] at heq
            obtain ⟨h1, h2⟩ := heq
            subst h2
            exact ⟨rfl, rfl⟩

theorem sendCommand_ok {s : ServerState} {aid : Nat} {cmd : String}
    {now cid : Nat} {evs : List PushEvent} {s' : ServerState}
    (heq : sendCommand s aid cmd now = .ok (cid, evs, s')) :
    cid = s.nextCommandId ∧
    s'.commands = s.commands ++
      [{ cmdId := s.nextCommandId, agentId := aid, command := cmd,
         status := "pending", createdAt := now, executedAt := none,
         result := none }] ∧
    s'.nextCommandId = s.nextCommandId + 1 := by
  unfold sendCommand at heq
  split at heq
  · exact absurd heq (by simp)
  · split at heq
    · simp only [Except.ok.injEq, Prod.mk.injEq] at heq
      obtain ⟨h1, h2, h3⟩ := heq
      subst h3
      exact ⟨h1.symm, rfl, rfl⟩
    · exact absurd heq (by simp)

theorem deleteAgent_ok {s : ServerState} {aid : Nat} {s' : ServerState}
    (heq : deleteAgent s aid = .ok s') :
    s'.commands = s.commands.filter (fun c => c.agentId != aid) ∧
    s'.nextCommandId = s.nextCommandId := by
  unfold deleteAgent at heq
  split at heq
  · simp only [Except.ok.injEq] at heq
    subst heq
    exact ⟨rfl, rfl⟩
  · exact absurd heq (by simp)

/-- The completing update of `submitResult` never changes a command's id. -/
theorem submitResult_cmdIds (s : ServerState) (aid cid : Nat)
    (res : String) (now : Nat) :
    (submitResult s aid cid res now).commands.map CommandRec.cmdId
      = s.commands.map CommandRec.cmdId := by
  rw [submitResult_commands, List.map_map]
  refine List.map_congr_left ?_
  intro c _
  by_cases hc : c.cmdId = cid ∧ c.agentId = aid
  · simp [hc]
  · simp [hc]

/-- In a duplicate-free ledger, a command is determined by its id. -/
theorem cmd_eq_of_nodup {l : List CommandRec}
    (hnd : (l.map CommandRec.cmdId).Nodup) {c c' : CommandRec}
    (hc : c ∈ l) (hc' : c' ∈ l) (h : c.cmdId = c'.cmdId) : c = c' :=
  List.inj_on_of_nodup_map hnd hc hc' h

/-- Every reachable ledger is well-formed: ids are duplicate-free and
below the AUTOINCREMENT counter. -/
theorem reachable_cmdWF (s : ServerState) (hr : Reachable s) : CmdWF s := by
  induction hr with
  | refl => exact ⟨List.nodup_nil, by intro c hc; cases hc⟩
  | tail h₁ hstep ih =>
    obtain ⟨hnd, hbound⟩ := ih
    cases hstep with
    | register h u o r caps now => exact ⟨hnd, hbound⟩
    | admitManual h u o ip caps now aid s' heq =>
      obtain ⟨hc, hn⟩ := addAgentManually_ok heq
      unfold CmdWF
      rw [hc, hn]
      exact ⟨hnd, hbound⟩
    | delete aid s' heq =>
      obtain ⟨hc, hn⟩ := deleteAgent_ok heq
      unfold CmdWF
      rw [hc, hn]
      refine ⟨List.Nodup.sublist
        (List.Sublist.map _ (List.filter_sublist _)) hnd, ?_⟩
      intro c hcmem
      exact hbound c (List.mem_of_mem_filter hcmem)
    | enqueue aid cmd now cid evs s' heq =>
      obtain ⟨hcid, hc, hn⟩ := sendCommand_ok heq
      unfold CmdWF
      rw [hc, hn, List.map_append]
      refine ⟨List.nodup_append.2 ⟨hnd, List.nodup_singleton _, ?_⟩, ?_⟩
      · intro i hi hi'
        simp only [List.map_cons, List.map_nil, List.mem_singleton] at hi'
        subst hi'
        obtain ⟨c, hcm, hci⟩ := List.mem_map.1 hi
        exact absurd hci (Nat.ne_of_lt (hbound c hcm))
      · intro c hcmem
        rcases List.mem_append.1 hcmem with hmem | hmem
        · exact Nat.lt_succ_of_lt (hbound c hmem)
        · simp only [List.mem_singleton] at hmem
          subst hmem
          exact Nat.lt_succ_self _
    | checkin aid now => exact ⟨hnd, hbound⟩
    | result aid cid res now =>
      refine ⟨by rw [submitResult_cmdIds]; exact hnd, ?_⟩
      intro c hcmem
      rw [submitResult_commands] at hcmem
      obtain ⟨c₀, hc₀, hc₀'⟩ := List.mem_map.1 hcmem
      have hid : c.cmdId = c₀.cmdId := by
        subst hc₀'
        by_cases hm : c₀.cmdId = cid ∧ c₀.agentId = aid
        · simp [hm]
        · simp [hm]
      rw [hid]
      exact hbound c₀ hc₀
    | attach aid => exact ⟨hnd, hbound⟩
    | detach aid => exact ⟨hnd, hbound⟩

theorem statusRank_le_two (st : String) : statusRank st ≤ 2 := by
  unfold statusRank
  split <;> omega

/-- Monotonicity is immediate for operations that leave the ledger
untouched. -/
theorem mono_of_unchanged {s s' : ServerState}
    (hnd : (s.commands.map CommandRec.cmdId).Nodup)
    (hcomm : s'.commands = s.commands) :
    (∀ c ∈ s.commands, ∀ c' ∈ s'.commands, c.cmdId = c'.cmdId →
        c.agentId = c'.agentId ∧
        statusRank c.status ≤ statusRank c'.status) ∧
    (∀ c' ∈ s'.commands, (∀ c ∈ s.commands, c.cmdId ≠ c'.cmdId) →
        c'.status = "pending") := by
  refine ⟨?_, ?_⟩
  · intro c hc c' hc' hid
    rw [hcomm] at hc'
    obtain rfl := cmd_eq_of_nodup hnd hc hc' hid
    exact ⟨rfl, Nat.le_refl _⟩
  · intro c' hc' hnone
    rw [hcomm] at hc'
    exact absurd rfl (hnone c' hc')

/-- The state reached by registering one agent and enqueueing `whoami`. -/
theorem reachable_exState : Reachable exState := by
  have h1 : Step initState
      (registerAgent initState "host" "user" "Linux 6.1" []
        "10.0.0.2" 0).2 :=
    Step.register initState "host" "user" "Linux 6.1" "10.0.0.2" [] 0
  have h2 : Step
      (registerAgent initState "host" "user" "Linux 6.1" []
        "10.0.0.2" 0).2 exState :=
    Step.enqueue _ 0 "whoami" 0 1 [] exState (by rfl)
  exact Relation.ReflTransGen.tail
    (Relation.ReflTransGen.tail Relation.ReflTransGen.refl h1) h2

/-! ## C4: status lifecycle monotonicity -/

/-- C4: along every controller operation out of a reachable state, a
command's owning agent id never changes, its status rank in the order
PENDING → SENT → (COMPLETED | FAILED) never decreases, and every command
that appears new in the successor state carries status PENDING — no
command skips the PENDING stage. -/
theorem status_monotone (s s' : ServerState) (hr : Reachable s)
    (hstep : Step s s') :
    (∀ c ∈ s.commands, ∀ c' ∈ s'.commands, c.cmdId = c'.cmdId →
        c.agentId = c'.agentId ∧
        statusRank c.status ≤ statusRank c'.status) ∧
    (∀ c' ∈ s'.commands, (∀ c ∈ s.commands, c.cmdId ≠ c'.cmdId) →
        c'.status = "pending") := by
  obtain ⟨hnd, hbound⟩ := reachable_cmdWF s hr
  cases hstep with
  | register h u o r caps now => exact mono_of_unchanged hnd rfl
  | admitManual h u o ip caps now aid s'' heq =>
    exact mono_of_unchanged hnd (addAgentManually_ok heq).1
  | delete aid s'' heq =>
    obtain ⟨hc, -⟩ := deleteAgent_ok heq
    refine ⟨?_, ?_⟩
    · intro c hcm c' hc' hid
      rw [hc] at hc'
      obtain rfl := cmd_eq_of_nodup hnd hcm (List.mem_of_mem_filter hc') hid
      exact ⟨rfl, Nat.le_refl _⟩
    · intro c' hc' hnone
      rw [hc] at hc'
      exact absurd rfl (hnone c' (List.mem_of_mem_filter hc'))
  | enqueue aid cmd now cid evs s'' heq =>
    obtain ⟨hcid, hc, -⟩ := sendCommand_ok heq
    refine ⟨?_, ?_⟩
    · intro c hcm c' hc' hid
      rw [hc] at hc'
      rcases List.mem_append.1 hc' with hmem | hmem
      · obtain rfl := cmd_eq_of_nodup hnd hcm hmem hid
        exact ⟨rfl, Nat.le_refl _⟩
      · simp only [List.mem_singleton] at hmem
        subst hmem
        exact absurd hid (Nat.ne_of_lt (hbound c hcm))
    · intro c' hc' hnone
      rw [hc] at hc'
      rcases List.mem_append.1 hc' with hmem | hmem
      · exact absurd rfl (hnone c' hmem)
      · simp only [List.mem_singleton] at hmem
        subst hmem
        rfl
  | checkin aid now => exact mono_of_unchanged hnd rfl
  | result aid cid res now =>
    refine ⟨?_, ?_⟩
    · intro c hcm c' hc' hid
      rw [submitResult_commands] at hc'
      obtain ⟨c₀, hc₀, hc₀'⟩ := List.mem_map.1 hc'
      have hid0 : c'.cmdId = c₀.cmdId := by
        subst hc₀'
        by_cases hm : c₀.cmdId = cid ∧ c₀.agentId = aid <;> simp [hm]
      obtain rfl := cmd_eq_of_nodup hnd hcm hc₀ (hid.trans hid0)
      subst hc₀'
      by_cases hm : c.cmdId = cid ∧ c.agentId = aid
      · rw [if_pos hm]
        exact ⟨rfl, statusRank_le_two c.status⟩
      · rw [if_neg hm]
        exact ⟨rfl, Nat.le_refl _⟩
    · intro c' hc' hnone
      rw [submitResult_commands] at hc'
      obtain ⟨c₀, hc₀, hc₀'⟩ := List.mem_map.1 hc'
      have hid0 : c'.cmdId = c₀.cmdId := by
        subst hc₀'
        by_cases hm : c₀.cmdId = cid ∧ c₀.agentId = aid <;> simp [hm]
      exact absurd hid0.symm (hnone c₀ hc₀)
  | attach aid => exact mono_of_unchanged hnd rfl
  | detach aid => exact mono_of_unchanged hnd rfl

/-- C4 witness: the result-ingestion step completing `whoami` on the
reachable one-command state keeps the owning agent and only advances the
status rank. -/
theorem status_monotone_witness :
    exCmd.agentId = exCmdDone.agentId ∧
    statusRank exCmd.status ≤ statusRank exCmdDone.status :=
  (status_monotone exState (submitResult exState 0 1 "root" 6)
    reachable_exState (Step.result exState 0 1 "root" 6)).1
    exCmd (by decide) exCmdDone (by decide) rfl

/-! ## C10: the status vocabulary actually assigned -/

/-- C10: in every reachable controller state, every stored command has
status `'pending'` or `'completed'` — no controller operation ever
assigns `'sent'` or `'failed'`, although both belong to the documented
vocabulary. -/
theorem command_status_vocab (s : ServerState) (hr : Reachable s) :
    ∀ c ∈ s.commands, c.status = "pending" ∨ c.status = "completed" := by
  induction hr with
  | refl => intro c hc; cases hc
  | tail h₁ hstep ih =>
    cases hstep with
    | register h u o r caps now => exact ih
    | admitManual h u o ip caps now aid s' heq =>
      rw [(addAgentManually_ok heq).1]
      exact ih
    | delete aid s' heq =>
      rw [(deleteAgent_ok heq).1]
      intro c hc
      exact ih c (List.mem_of_mem_filter hc)
    | enqueue aid cmd now cid evs s' heq =>
      rw [(sendCommand_ok heq).2.1]
      intro c hc
      rcases List.mem_append.1 hc with hmem | hmem
      · exact ih c hmem
      · simp only [List.mem_singleton] at hmem
        subst hmem
        exact Or.inl rfl
    | checkin aid now => exact ih
    | result aid cid res now =>
      intro c hc
      rw [submitResult_commands] at hc
      obtain ⟨c₀, hc₀, hc₀'⟩ := List.mem_map.1 hc
      subst hc₀'
      by_cases hm : c₀.cmdId = cid ∧ c₀.agentId = aid
      · rw [if_pos hm]
        exact Or.inr rfl
      · rw [if_neg hm]
        exact ih c₀ hc₀
    | attach aid => exact ih
    | detach aid => exact ih

/-- C10 witness: the vocabulary invariant evaluated on the reachable
one-command state. -/
theorem command_status_vocab_witness :
    exCmd.status = "pending" ∨ exCmd.status = "completed" :=
  command_status_vocab exState reachable_exState exCmd (by decide)

/-! ## C6: the command denylist -/

/-- C6, counterexample: `cd rm -rf /` matches the denylist pattern
`rm -rf`, yet `execute_command` handles it in the earlier `cd ` branch:
the result text is the `cd` error, not the forbidden-command marker
(the host execution facility is still not invoked). -/
theorem denylist_cex :
    matchesDenylist "cd rm -rf /" = true ∧
    (executeCommand exEnv "cd rm -rf /").output ≠ forbiddenMsg ∧
    (executeCommand exEnv "cd rm -rf /").ranShell = false := by
  refine ⟨by decide, by decide, by decide⟩

/-- C6 (amended): for every command string not captured by the earlier
`cd ` branch, a denylist match makes `execute_command` return the
forbidden-command marker without invoking the host execution facility
(the built-in commands `pwd`/`whoami`/`hostname`/`sysinfo` never match
the denylist, so only the `cd ` prefix needs excluding). -/
theorem denylist_amended (env : HostEnv) (c : String)
    (hcd : pyStartsWith c "cd " = false)
    (hmatch : matchesDenylist c = true) :
    executeCommand env c = ⟨forbiddenMsg, false⟩ := by
  unfold executeCommand
  rw [hcd]
  simp only [Bool.false_eq_true, if_false]
  have hpwd : c ≠ "pwd" := by
    intro h
    subst h
    exact absurd hmatch (by decide)
  have hwho : c ≠ "whoami" := by
    intro h
    subst h
    exact absurd hmatch (by decide)
  have hhost : c ≠ "hostname" := by
    intro h
    subst h
    exact absurd hmatch (by decide)
  have hsys : c ≠ "sysinfo" := by
    intro h
    subst h
    exact absurd hmatch (by decide)
  rw [if_neg hpwd, if_neg hwho, if_neg hhost, if_neg hsys, hmatch]
  rfl

/-- C6 witness: the amended theorem applied to a concrete denylisted
command. -/
theorem denylist_amended_witness :
    executeCommand exEnv "shutdown now" = ⟨forbiddenMsg, false⟩ :=
  denylist_amended exEnv "shutdown now" (by decide) (by decide)

/-! ## C7: totality of command execution -/

/-- C7: `execute_command` always returns a result string (the embedding is
a total function, mirroring the enclosing catch-all try/except); for a
command that reaches the host execution facility, expiry of the 30-second
budget yields the Timeout result text and any other raised exception
yields the execution-error result text — never a propagated exception. -/
theorem execute_total (env : HostEnv) (c : String) :
    (∃ r : ExecResult, executeCommand env c = r) ∧
    (pyStartsWith c "cd " = false → c ≠ "pwd" → c ≠ "whoami" →
      c ≠ "hostname" → c ≠ "sysinfo" → matchesDenylist c = false →
      (env.run c = .timedOut →
        executeCommand env c = ⟨timeoutMsg, true⟩) ∧
      (∀ m, env.run c = .raised m →
        executeCommand env c = ⟨"❌ Erreur d'exécution: " ++ m, true⟩)) := by
  refine ⟨⟨_, rfl⟩, ?_⟩
  intro hcd hpwd hwho hhost hsys hmatch
  unfold executeCommand
  rw [hcd]
  simp only [Bool.false_eq_true, if_false]
  rw [if_neg hpwd, if_neg hwho, if_neg hhost, if_neg hsys, hmatch]
  simp only [Bool.false_eq_true, if_false]
  constructor
  · intro hrun
    rw [hrun]
  · intro m hrun
    rw [hrun]

/-- C7 witness: a shell command whose execution times out on the concrete
host oracle yields the Timeout result text. -/
theorem execute_total_witness :
    executeCommand exEnv "sleep 999" = ⟨timeoutMsg, true⟩ :=
  ((execute_total exEnv "sleep 999").2 (by decide) (by decide) (by decide)
    (by decide) (by decide) (by decide)).1 rfl

end C2Spec
